import Mathlib

/-!
Verification of the response-schema validator of `src/lib/validators.py`
(class `ResponseValidator`): JSON values, schema fragments, the recursive
property validator, the endpoint path matcher and the response-schema
extractor are embedded as executable Lean definitions, and the spec's
claims about them are settled as theorems.

Modelling conventions (shallow embedding of the Python source):
* Python JSON values are the inductive `JValue`.  Python distinguishes the
  runtime types `bool`, `int` and `float`; `isinstance(b, int)` is `True`
  for booleans, which the embedding reproduces (`isIntType`).  Python
  floats are modelled by exact rationals: the validator only inspects a
  float's type tag and compares its magnitude, never performs rounding
  arithmetic.
* A schema fragment (a Python `dict`) is the inductive `Schema` holding
  exactly the keys `_validate_property` reads.  An absent key is `none`
  (or the empty list for the iterated keys `properties` / `required`,
  whose absent and empty forms are indistinguishable to the code).
  `nullable` models the truthiness test `'nullable' in schema and
  schema['nullable']`.
* Python dicts are association lists looked up by key (`List.lookup`);
  insertion order is the list order, matching `dict` iteration order.
-/

namespace LLMEval

/-- A parsed JSON value as Python represents it: `None`, `bool`, `int`,
`float` (modelled by an exact rational), `str`, `list`, `dict`. -/
inductive JValue where
  | null : JValue
  | bool (b : Bool) : JValue
  | int (n : Int) : JValue
  | float (q : Rat) : JValue
  | str (s : String) : JValue
  | arr (xs : List JValue) : JValue
  | obj (fields : List (String × JValue)) : JValue

/-- A schema fragment: the keys of the Python schema `dict` that
`_validate_property` reads.  `none` models an absent key. -/
inductive Schema where
  | mk
      (type : Option String)
      (nullable : Bool)
      (format : Option String)
      (minLength : Option Nat)
      (maxLength : Option Nat)
      (minimum : Option Rat)
      (maximum : Option Rat)
      (minItems : Option Nat)
      (maxItems : Option Nat)
      (items : Option Schema)
      (properties : List (String × Schema))
      (required : List String)
      (anyOf : Option (List Schema))
      : Schema

/-- The `type` key of a fragment. -/
@[simp] def Schema.type : Schema → Option String
  | Schema.mk t _ _ _ _ _ _ _ _ _ _ _ _ => t

/-- The truthiness of the `nullable` key of a fragment. -/
@[simp] def Schema.nullable : Schema → Bool
  | Schema.mk _ n _ _ _ _ _ _ _ _ _ _ _ => n

/-- The `format` key of a fragment. -/
@[simp] def Schema.format : Schema → Option String
  | Schema.mk _ _ f _ _ _ _ _ _ _ _ _ _ => f

/-- The `minLength` key of a fragment. -/
@[simp] def Schema.minLength : Schema → Option Nat
  | Schema.mk _ _ _ m _ _ _ _ _ _ _ _ _ => m

/-- The `maxLength` key of a fragment. -/
@[simp] def Schema.maxLength : Schema → Option Nat
  | Schema.mk _ _ _ _ m _ _ _ _ _ _ _ _ => m

/-- The `minimum` key of a fragment. -/
@[simp] def Schema.minimum : Schema → Option Rat
  | Schema.mk _ _ _ _ _ m _ _ _ _ _ _ _ => m

/-- The `maximum` key of a fragment. -/
@[simp] def Schema.maximum : Schema → Option Rat
  | Schema.mk _ _ _ _ _ _ m _ _ _ _ _ _ => m

/-- The `minItems` key of a fragment. -/
@[simp] def Schema.minItems : Schema → Option Nat
  | Schema.mk _ _ _ _ _ _ _ m _ _ _ _ _ => m

/-- The `maxItems` key of a fragment. -/
@[simp] def Schema.maxItems : Schema → Option Nat
  | Schema.mk _ _ _ _ _ _ _ _ m _ _ _ _ => m

/-- The `items` key of a fragment. -/
@[simp] def Schema.items : Schema → Option Schema
  | Schema.mk _ _ _ _ _ _ _ _ _ i _ _ _ => i

/-- The `properties` key of a fragment (absent modelled as `[]`). -/
@[simp] def Schema.properties : Schema → List (String × Schema)
  | Schema.mk _ _ _ _ _ _ _ _ _ _ p _ _ => p

/-- The `required` key of a fragment (absent modelled as `[]`). -/
@[simp] def Schema.required : Schema → List String
  | Schema.mk _ _ _ _ _ _ _ _ _ _ _ r _ => r

/-- The `anyOf` key of a fragment. -/
@[simp] def Schema.anyOf : Schema → Option (List Schema)
  | Schema.mk _ _ _ _ _ _ _ _ _ _ _ _ a => a

/-- The same fragment with the `anyOf` key removed; used to state that the
union check of `_validate_property` runs in addition to, and after, all
type-directed checks. -/
def Schema.clearAnyOf : Schema → Schema
  | Schema.mk t n f mnl mxl mnm mxm mni mxi i p r _ =>
      Schema.mk t n f mnl mxl mnm mxm mni mxi i p r none

/-- A fragment declaring only a `type` key. -/
def typeOnly (t : String) : Schema :=
  Schema.mk (some t) false none none none none none none none none [] [] none

/-- A fragment declaring only an `anyOf` key. -/
def anyOfOnly (l : List Schema) : Schema :=
  Schema.mk none false none none none none none none none none [] [] (some l)

/-- The empty fragment: no keys at all. -/
def emptySchema : Schema :=
  Schema.mk none false none none none none none none none none [] [] none

/-- Python `isinstance(value, (int, float))`: booleans are `int`s in
Python, so they count as numeric. -/
def isNumericType : JValue → Bool
  | JValue.bool _ => true
  | JValue.int _ => true
  | JValue.float _ => true
  | _ => false

/-- Python `isinstance(value, int)`: true for `int` and `bool`. -/
def isIntType : JValue → Bool
  | JValue.bool _ => true
  | JValue.int _ => true
  | _ => false

/-- The numeric magnitude of a numeric Python value (`True` is 1,
`False` is 0), used by the `minimum` / `maximum` comparisons. -/
def toNum : JValue → Rat
  | JValue.bool b => if b then 1 else 0
  | JValue.int n => (n : Rat)
  | JValue.float q => q
  | _ => 0

/-!
### String format validation (`_validate_string_format`)

The source checks formats with `re.match` on fixed patterns.  The regexes
are embedded as explicit character-class matchers:

* `date-time`: `^\d{4}-\d{2}-\d{2}T\d{2}:\d{2}:\d{2}` — `re.match` anchors
  only at the start, so this is a prefix check.
* `email` / `uuid` / `uri`: patterns anchored with a final `$`; Python's
  `$` also matches just before one trailing newline, which
  `matchWithTrailingNewline` reproduces.

`\d` and the literal character classes are modelled over ASCII, which is
the range the patterns spell out.
-/

/-- Match a list of character predicates against a prefix of the input
(the input may be longer; mirrors an unanchored-at-the-end `re.match`). -/
def matchClassesPre : List (Char → Bool) → List Char → Bool
  | [], _ => true
  | _ :: _, [] => false
  | p :: ps, c :: cs => p c && matchClassesPre ps cs

/-- Match a list of character predicates against the whole input. -/
def matchClassesExact : List (Char → Bool) → List Char → Bool
  | [], cs => cs.isEmpty
  | _ :: _, [] => false
  | p :: ps, c :: cs => p c && matchClassesExact ps cs

/-- A `$`-anchored pattern matches the whole string, or everything up to
one final newline (Python `$` semantics for `re.match`). -/
def matchWithTrailingNewline (p : List Char → Bool) (cs : List Char) : Bool :=
  p cs || (cs.getLast? == some '\n' && p cs.dropLast)

/-- The character classes of `^\d{4}-\d{2}-\d{2}T\d{2}:\d{2}:\d{2}`. -/
def dateTimeClasses : List (Char → Bool) :=
  List.replicate 4 Char.isDigit ++ [fun c => c == '-'] ++
  List.replicate 2 Char.isDigit ++ [fun c => c == '-'] ++
  List.replicate 2 Char.isDigit ++ [fun c => c == 'T'] ++
  List.replicate 2 Char.isDigit ++ [fun c => c == ':'] ++
  List.replicate 2 Char.isDigit ++ [fun c => c == ':'] ++
  List.replicate 2 Char.isDigit

/-- The class `[a-zA-Z0-9._%+-]` of the email local part. -/
def isEmailLocalChar (c : Char) : Bool :=
  c.isAlphanum || c == '.' || c == '_' || c == '%' || c == '+' || c == '-'

/-- The class `[a-zA-Z0-9.-]` of the email domain. -/
def isEmailDomainChar (c : Char) : Bool :=
  c.isAlphanum || c == '.' || c == '-'

/-- `[a-zA-Z0-9.-]+\.[a-zA-Z]{2,}` against the whole input: there is a
split at some dot with a nonempty domain before it and a 2+-letter TLD
after it (the existential ranges over the splits the backtracking regex
engine would try). -/
def emailDomainMatch (cs : List Char) : Bool :=
  (List.range cs.length).any (fun i =>
    decide (1 ≤ i) && (cs.take i).all isEmailDomainChar &&
    ((cs.drop i).head? == some '.') &&
    decide (2 ≤ (cs.drop (i + 1)).length) && (cs.drop (i + 1)).all Char.isAlpha)

/-- `^[a-zA-Z0-9._%+-]+@[a-zA-Z0-9.-]+\.[a-zA-Z]{2,}$` (up to the final
`$`): split at some `@` with a nonempty local part before it. -/
def emailMatch (cs : List Char) : Bool :=
  (List.range cs.length).any (fun i =>
    decide (1 ≤ i) && (cs.take i).all isEmailLocalChar &&
    ((cs.drop i).head? == some '@') &&
    emailDomainMatch (cs.drop (i + 1)))

/-- The class `[0-9a-f]` under `re.I`: hexadecimal digits of either case. -/
def isHexChar (c : Char) : Bool :=
  c.isDigit || ('a' ≤ c && c ≤ 'f') || ('A' ≤ c && c ≤ 'F')

/-- The classes of `^[0-9a-f]{8}-[0-9a-f]{4}-[0-9a-f]{4}-[0-9a-f]{4}-[0-9a-f]{12}$`. -/
def uuidClasses : List (Char → Bool) :=
  List.replicate 8 isHexChar ++ [fun c => c == '-'] ++
  List.replicate 4 isHexChar ++ [fun c => c == '-'] ++
  List.replicate 4 isHexChar ++ [fun c => c == '-'] ++
  List.replicate 4 isHexChar ++ [fun c => c == '-'] ++
  List.replicate 12 isHexChar

/-- Python's `\s` over ASCII: space, tab, newline, carriage return,
form feed, vertical tab. -/
def isPySpace (c : Char) : Bool :=
  c == ' ' || c == '\t' || c == '\n' || c == '\r' || c == '\x0b' || c == '\x0c'

/-- After the scheme, `[^\s/$.?#].[^\s]*$`: one constrained character, one
arbitrary non-newline character, then non-whitespace to the end. -/
def urlTail (cs : List Char) : Bool :=
  match cs with
  | c1 :: c2 :: rest =>
      !isPySpace c1 && c1 != '/' && c1 != '$' && c1 != '.' && c1 != '?' && c1 != '#' &&
      c2 != '\n' && rest.all (fun c => !isPySpace c)
  | _ => false

/-- `^https?://[^\s/$.?#].[^\s]*$` (up to the final `$`). -/
def urlMatch (cs : List Char) : Bool :=
  if List.isPrefixOf "https://".toList cs then urlTail (cs.drop 8)
  else if List.isPrefixOf "http://".toList cs then urlTail (cs.drop 7)
  else false

/-- `_validate_string_format`: check a string against a named format;
unknown formats pass. -/
def validate_string_format (name : String) (value : String) (format_type : String) : List String :=
  if format_type = "date-time" then
    if matchClassesPre dateTimeClasses value.toList then []
    else ["Property " ++ name ++ " should be in ISO date-time format"]
  else if format_type = "email" then
    if matchWithTrailingNewline emailMatch value.toList then []
    else ["Property " ++ name ++ " should be a valid email address"]
  else if format_type = "uuid" then
    if matchWithTrailingNewline (matchClassesExact uuidClasses) value.toList then []
    else ["Property " ++ name ++ " should be a valid UUID"]
  else if format_type = "uri" ∨ format_type = "url" then
    if matchWithTrailingNewline urlMatch value.toList then []
    else ["Property " ++ name ++ " should be a valid URL"]
  else []

/-!
### The recursive property validator (`_validate_property`)

`validate_property name value schema` is the embedding of
`_validate_property(self, name, value, schema)`.  The three `for` loops of
the source (array elements, declared object properties, `anyOf`
alternatives) become the mutually recursive list walkers `validate_items`,
`validate_props` and `any_of_check`; each reproduces the loop's
accumulation order, and `any_of_check` returns `none` on the loop's
`break` (first alternative with no errors), `some collected` when every
alternative failed.
-/

theorem sizeOf_items_lt (s : Schema) (x : Schema) (h : s.items = some x) :
    sizeOf x < sizeOf s := by
  cases s with
  | mk t n f mnl mxl mnm mxm mni mxi i p r a =>
    simp [Schema.items] at h
    subst h
    simp
    omega

theorem sizeOf_properties_lt (s : Schema) : sizeOf s.properties < sizeOf s := by
  cases s with
  | mk t n f mnl mxl mnm mxm mni mxi i p r a =>
    simp [Schema.properties]
    omega

theorem sizeOf_anyOf_lt (s : Schema) (l : List Schema) (h : s.anyOf = some l) :
    sizeOf l < sizeOf s := by
  cases s with
  | mk t n f mnl mxl mnm mxm mni mxi i p r a =>
    simp [Schema.anyOf] at h
    subst h
    simp
    omega

/-- The `required` loop of the `object` branch of `_validate_property`:
one error per declared required key absent from the value. -/
def required_errors_nested (name : String) (fields : List (String × JValue)) :
    List String → List String
  | [] => []
  | r :: rest =>
      (if (fields.lookup r).isSome then []
       else ["Missing required property " ++ name ++ "." ++ r]) ++
      required_errors_nested name fields rest

mutual

/-- `_validate_property(name, value, schema)`: null handling first (with
early return), then the `type`-directed checks, then the `anyOf` union
check, all errors concatenated in source order. -/
def validate_property (name : String) (value : JValue) (schema : Schema) : List String :=
  match value with
  | JValue.null =>
      if schema.nullable then [] else ["Property " ++ name ++ " cannot be null"]
  | value =>
      (match schema.type with
       | none => []
       | some t =>
         if t = "string" then
           match value with
           | JValue.str s =>
               (match schema.format with
                | some f => validate_string_format name s f
                | none => []) ++
               (match schema.minLength with
                | some m =>
                    if s.length < m then
                      ["Property " ++ name ++ " is too short (min: " ++ toString m ++ ")"]
                    else []
                | none => []) ++
               (match schema.maxLength with
                | some m =>
                    if s.length > m then
                      ["Property " ++ name ++ " is too long (max: " ++ toString m ++ ")"]
                    else []
                | none => [])
           | _ => ["Property " ++ name ++ " should be a string"]
         else if t = "number" ∨ t = "integer" then
           if isNumericType value then
             (if t = "integer" ∧ ¬ isIntType value then
                ["Property " ++ name ++ " should be an integer"]
              else []) ++
             (match schema.minimum with
              | some m =>
                  if toNum value < m then
                    ["Property " ++ name ++ " is too small (min: " ++ toString m ++ ")"]
                  else []
              | none => []) ++
             (match schema.maximum with
              | some m =>
                  if toNum value > m then
                    ["Property " ++ name ++ " is too large (max: " ++ toString m ++ ")"]
                  else []
              | none => [])
           else ["Property " ++ name ++ " should be a number"]
         else if t = "boolean" then
           match value with
           | JValue.bool _ => []
           | _ => ["Property " ++ name ++ " should be a boolean"]
         else if t = "array" then
           match value with
           | JValue.arr xs =>
               (match h1 : schema.items with
                | some itemSchema => validate_items name itemSchema 0 xs
                | none => []) ++
               (match schema.minItems with
                | some m =>
                    if xs.length < m then
                      ["Property " ++ name ++ " has too few items (min: " ++ toString m ++ ")"]
                    else []
                | none => []) ++
               (match schema.maxItems with
                | some m =>
                    if xs.length > m then
                      ["Property " ++ name ++ " has too many items (max: " ++ toString m ++ ")"]
                    else []
                | none => [])
           | _ => ["Property " ++ name ++ " should be an array"]
         else if t = "object" then
           match value with
           | JValue.obj fields =>
               validate_props name fields schema.properties ++
               required_errors_nested name fields schema.required
           | _ => ["Property " ++ name ++ " should be an object"]
         else []) ++
      (match h2 : schema.anyOf with
       | none => []
       | some subs =>
         match any_of_check name value subs with
         | none => []
         | some collected =>
             ("Property " ++ name ++ " does not match any allowed schemas") ::
             collected.map (fun err => "  - " ++ err))
termination_by (sizeOf schema, 0)
decreasing_by
  all_goals
    first
    | exact Prod.Lex.left _ _ (sizeOf_items_lt _ _ h1)
    | exact Prod.Lex.left _ _ (sizeOf_anyOf_lt _ _ h2)
    | exact Prod.Lex.left _ _ (sizeOf_properties_lt _)

/-- The `anyOf` loop: `none` when some alternative yields no errors
(the loop's `break`); `some` of all collected sub-errors when every
alternative fails. -/
def any_of_check (name : String) (value : JValue) (subs : List Schema) :
    Option (List String) :=
  match subs with
  | [] => some []
  | s :: rest =>
      let subErrors := validate_property name value s
      if subErrors.isEmpty then none
      else
        match any_of_check name value rest with
        | none => none
        | some acc => some (subErrors ++ acc)
termination_by (sizeOf subs, 0)

/-- The array-element loop: validate each element against `items` with
path suffix `[index]`, accumulating errors in index order. -/
def validate_items (name : String) (itemSchema : Schema) (i : Nat) (xs : List JValue) :
    List String :=
  match xs with
  | [] => []
  | x :: rest =>
      validate_property (name ++ "[" ++ toString i ++ "]") x itemSchema ++
      validate_items name itemSchema (i + 1) rest
termination_by (sizeOf itemSchema, xs.length)

/-- The declared-properties loop of the `object` branch: recurse into each
declared property present in the value with path suffix `.propertyName`. -/
def validate_props (name : String) (fields : List (String × JValue))
    (props : List (String × Schema)) : List String :=
  match props with
  | [] => []
  | (pn, ps) :: rest =>
      (match fields.lookup pn with
       | some v => validate_property (name ++ "." ++ pn) v ps
       | none => []) ++
      validate_props name fields rest
termination_by (sizeOf props, 0)

end

/-!
### The top-level entry (`validate_response`)

`validate_response(response, schema)` runs the `required` loop, then the
declared-properties loop, on the top-level response.  The source tests
`prop not in response` and indexes `response[prop_name]`: on a `dict`
these are key lookup; on a `list` membership compares elements to the
string; on a `str` membership is a substring test; on any other value
Python raises `TypeError`, and indexing with a string raises on anything
but a `dict`.  Raised exceptions are modelled with `Except.error`.
-/

/-- Python `key in container` for a string key. -/
def pyContains (container : JValue) (key : String) : Except String Bool :=
  match container with
  | JValue.obj fields => Except.ok (fields.lookup key).isSome
  | JValue.arr xs =>
      Except.ok (xs.any (fun v =>
        match v with
        | JValue.str t => t == key
        | _ => false))
  | JValue.str s => Except.ok (decide (List.IsInfix key.toList s.toList))
  | _ => Except.error "TypeError: argument is not iterable"

/-- Python `container[key]` for a string key. -/
def pyGetItem (container : JValue) (key : String) : Except String JValue :=
  match container with
  | JValue.obj fields =>
      match fields.lookup key with
      | some v => Except.ok v
      | none => Except.error "KeyError"
  | _ => Except.error "TypeError: value cannot be indexed by a string"

/-- The `required` loop of `validate_response`: one
`"Missing required property: <name>"` per absent required key. -/
def required_errors_top (response : JValue) : List String → Except String (List String)
  | [] => Except.ok []
  | p :: rest =>
      match pyContains response p with
      | Except.error e => Except.error e
      | Except.ok c =>
          match required_errors_top response rest with
          | Except.error e => Except.error e
          | Except.ok tail =>
              Except.ok ((if c then [] else ["Missing required property: " ++ p]) ++ tail)

/-- The declared-properties loop of `validate_response`: delegate each
present property to `_validate_property`. -/
def properties_errors_top (response : JValue) :
    List (String × Schema) → Except String (List String)
  | [] => Except.ok []
  | (pn, ps) :: rest =>
      match pyContains response pn with
      | Except.error e => Except.error e
      | Except.ok c =>
          if c then
            match pyGetItem response pn with
            | Except.error e => Except.error e
            | Except.ok v =>
                match properties_errors_top response rest with
                | Except.error e => Except.error e
                | Except.ok tail => Except.ok (validate_property pn v ps ++ tail)
          else
            properties_errors_top response rest

/-- `validate_response(response, schema)`: required-key errors followed by
per-property errors; `Except.error` models a raised `TypeError`. -/
def validate_response (response : JValue) (schema : Schema) : Except String (List String) :=
  match required_errors_top response schema.required with
  | Except.error e => Except.error e
  | Except.ok reqErrors =>
      match properties_errors_top response schema.properties with
      | Except.error e => Except.error e
      | Except.ok propErrors => Except.ok (reqErrors ++ propErrors)

/-- A batch of validations run in sequence against an accumulator, the way
a caller would fold `validate_response` over observed responses. -/
def validateBatch (jobs : List (JValue × Schema)) : List (Except String (List String)) :=
  jobs.foldl (fun acc job => acc ++ [validate_response job.1 job.2]) []

/-!
### Endpoint path matching and response-schema extraction

`get_schema_for_endpoint` normalizes the concrete path, prefers a
verbatim template match, and otherwise scans the registered templates in
stored order.  `_match_path_pattern` builds a regex from the template by
replacing every `{name}` with `([^/]+)` and anchoring with `^...$`; the
embedding parses the template into literal characters and parameter
slots (`parseTemplate`, mirroring `re.sub` on `\{([^}]+)\}`) and matches
with explicit backtracking (`matchParts`: a parameter consumes one or
more non-slash characters, trying every split, which is exactly the set
of matches the regex engine explores).  Python's `$` also accepts one
trailing newline, reproduced in `match_path_pattern`.  Literal template
characters are treated verbatim; templates containing other regex
metacharacters are outside this model.
-/

/-- One token of a compiled path template: a literal character or a
`{name}` parameter slot. -/
inductive PathPart where
  | lit (c : Char)
  | param

/-- Compile a template, replacing each `{name}` (nonempty name, mirroring
`\{([^}]+)\}`) by a parameter slot; unpaired braces stay literal. -/
def parseTemplate : List Char → List PathPart
  | [] => []
  | c :: rest =>
      if c = '\x7b' then
        let inner := rest.takeWhile (fun d => d ≠ '\x7d')
        if inner ≠ [] ∧ (rest.drop inner.length).head? = some '\x7d' then
          PathPart.param :: parseTemplate (rest.drop (inner.length + 1))
        else
          PathPart.lit c :: parseTemplate rest
      else
        PathPart.lit c :: parseTemplate rest
termination_by l => l.length
decreasing_by
  all_goals simp
  all_goals omega

/-- Match compiled template tokens against the whole character list; a
parameter slot consumes a nonempty run of non-`/` characters (every split
is tried, as regex backtracking would). -/
def matchParts : List PathPart → List Char → Bool
  | [], cs => cs.isEmpty
  | PathPart.lit _ :: _, [] => false
  | PathPart.lit c :: ps, d :: ds => d == c && matchParts ps ds
  | PathPart.param :: ps, cs =>
      (List.range cs.length).any (fun j =>
        (cs.take (j + 1)).all (fun d => d != '/') && matchParts ps (cs.drop (j + 1)))
termination_by ps _ => ps.length

/-- `_match_path_pattern(actual_path, schema_path)`. -/
def match_path_pattern (actual_path : String) (schema_path : String) : Bool :=
  let parts := parseTemplate schema_path.toList
  let cs := actual_path.toList
  matchParts parts cs || (cs.getLast? == some '\n' && matchParts parts cs.dropLast)

/-- A media-type object: an optional `schema` key. -/
structure MediaObject where
  schema : Option Schema

/-- A response spec: an optional `content` mapping (content type → media
object). -/
structure ResponseSpec where
  content : Option (List (String × MediaObject))

/-- An operation object: its `responses` mapping (status code → spec). -/
structure Operation where
  responses : List (String × ResponseSpec)

/-- A loaded OpenAPI document: the `paths` mapping (template → method →
operation), in registration order. -/
structure OpenAPIDoc where
  paths : List (String × List (String × Operation))

/-- `ResponseValidator`: holds the optionally loaded schema document. -/
structure ResponseValidator where
  schema : Option OpenAPIDoc

/-- One iteration of the `['200', '201']` loop of
`_extract_response_schema`: `some s` when the status code is present with
an `application/json` content entry (the loop returns `s`, itself the
optional `schema` key); `none` when this status code does not produce a
return. -/
def statusJsonSchema (responses : List (String × ResponseSpec)) (code : String) :
    Option (Option Schema) :=
  match responses.lookup code with
  | none => none
  | some respSpec =>
      match respSpec.content with
      | none => none
      | some content =>
          match content.lookup "application/json" with
          | none => none
          | some media => some media.schema

/-- `_extract_response_schema(method_spec)`: try `"200"` then `"201"`,
returning at the first status code whose content declares an
`application/json` entry. -/
def extract_response_schema (method_spec : Operation) : Option Schema :=
  match statusJsonSchema method_spec.responses "200" with
  | some s => s
  | none =>
      match statusJsonSchema method_spec.responses "201" with
      | some s => s
      | none => none

/-- Python `path.rstrip('/')`: drop every trailing slash. -/
def rstripSlashes (s : String) : String :=
  String.mk ((s.toList.reverse.dropWhile (fun c => c = '/')).reverse)

/-- The path normalization of `get_schema_for_endpoint`: strip trailing
slashes, enforce a leading slash (`path.startswith('/')` is the
first-character test). -/
def normalizePath (path : String) : String :=
  let p := rstripSlashes path
  if p.toList.head? = some '/' then p else "/" ++ p

/-- Python `method.lower()` over the ASCII range HTTP methods use. -/
def lowerAscii (s : String) : String :=
  String.mk (s.toList.map (fun c =>
    if 'A' ≤ c ∧ c ≤ 'Z' then Char.ofNat (c.toNat + 32) else c))

/-- The template scan of `get_schema_for_endpoint`: first template (in
stored order) that pattern-matches the path and whose operation mapping
contains the method. -/
def scanPaths (paths : List (String × List (String × Operation)))
    (method path : String) : Option Schema :=
  match paths with
  | [] => none
  | (schemaPath, pathSpec) :: rest =>
      if match_path_pattern path schemaPath then
        match pathSpec.lookup method with
        | some op => extract_response_schema op
        | none => scanPaths rest method path
      else scanPaths rest method path

/-- `get_schema_for_endpoint(method, path)`: normalize the path, prefer a
verbatim template whose operations contain the lowercased method, then
scan all templates in stored order. -/
def get_schema_for_endpoint (v : ResponseValidator) (method path : String) :
    Option Schema :=
  match v.schema with
  | none => none
  | some doc =>
      let npath := normalizePath path
      match
        (match doc.paths.lookup npath with
         | some endpointSpec =>
             match endpointSpec.lookup (lowerAscii method) with
             | some op => some (extract_response_schema op)
             | none => none
         | none => none : Option (Option Schema))
      with
      | some r => r
      | none => scanPaths doc.paths (lowerAscii method) npath

/-!
### Helper lemmas: distinguishing diagnostic messages

The claims about which errors can and cannot occur require telling the
fixed message texts apart, also under an arbitrary property path spliced
into the middle of the message.
-/

theorem string_ne_of_getElem (s t : String) (i : Nat) (cs ct : Char)
    (hs : s.data[i]? = some cs) (ht : t.data[i]? = some ct) (hne : cs ≠ ct) : s ≠ t := by
  intro h
  rw [h] at hs
  rw [hs] at ht
  exact hne (Option.some.inj ht)

theorem string_append_right_ne (p x y : String) (h : x ≠ y) : p ++ x ≠ p ++ y := by
  intro he
  apply h
  apply String.ext
  have hd : (p ++ x).data = (p ++ y).data := by rw [he]
  rw [String.data_append, String.data_append] at hd
  exact List.append_cancel_left hd

theorem string_append2_ne (p n x y : String) (h : x ≠ y) : p ++ (n ++ x) ≠ p ++ (n ++ y) :=
  string_append_right_ne p _ _ (string_append_right_ne n x y h)

theorem getElem_one_append (l1 l2 : List Char) (c : Char) (h : l1[1]? = some c) :
    (l1 ++ l2)[1]? = some c := by
  have hl : 1 < l1.length := by
    by_contra hc
    push_neg at hc
    rw [List.getElem?_eq_none (by omega)] at h
    exact Option.noConfusion h
  rw [List.getElem?_append_left hl]
  exact h

theorem intMsg_ne_small (name t : String) :
    "Property " ++ name ++ " should be an integer" ≠
      "Property " ++ name ++ " is too small (min: " ++ t ++ ")" := by
  simp only [String.append_assoc]
  apply string_append2_ne
  refine string_ne_of_getElem _ _ 1 's' 'i' ?_ ?_ (by decide)
  · rfl
  · rw [String.data_append]
    exact getElem_one_append _ _ _ rfl

theorem intMsg_ne_large (name t : String) :
    "Property " ++ name ++ " should be an integer" ≠
      "Property " ++ name ++ " is too large (max: " ++ t ++ ")" := by
  simp only [String.append_assoc]
  apply string_append2_ne
  refine string_ne_of_getElem _ _ 1 's' 'i' ?_ ?_ (by decide)
  · rfl
  · rw [String.data_append]
    exact getElem_one_append _ _ _ rfl

theorem intMsg_ne_summary (name : String) :
    "Property " ++ name ++ " should be an integer" ≠
      "Property " ++ name ++ " does not match any allowed schemas" := by
  simp only [String.append_assoc]
  exact string_append2_ne _ _ _ _ (string_ne_of_getElem _ _ 1 's' 'd' rfl rfl (by decide))

theorem indented_ne_of_head (e s : String) (c : Char) (h0 : s.data[0]? = some c)
    (hc : c ≠ ' ') : "  - " ++ e ≠ s := by
  apply string_ne_of_getElem _ _ 0 ' ' c _ h0 (fun hsp => hc (hsp.symm))
  rw [String.data_append]
  rfl

theorem prop_msg_head (name x : String) :
    ("Property " ++ name ++ x).data[0]? = some 'P' := by
  rw [String.data_append, String.data_append]
  rfl

/-!
### Helper lemmas: the `anyOf` loop, the array loop, the scans
-/

/-- The rendering of the `anyOf` stage of `_validate_property`: nothing
when some alternative succeeded, otherwise the summary line followed by
every collected sub-error indented with `"  - "`. -/
def anyOfRender (name : String) (value : JValue) : Option (List Schema) → List String
  | none => []
  | some subs =>
      match any_of_check name value subs with
      | none => []
      | some collected =>
          ("Property " ++ name ++ " does not match any allowed schemas") ::
          collected.map (fun err => "  - " ++ err)

theorem any_of_check_none_iff (name : String) (value : JValue) (subs : List Schema) :
    any_of_check name value subs = none ↔
      ∃ s ∈ subs, validate_property name value s = [] := by
  induction subs with
  | nil => simp [any_of_check]
  | cons s rest ih =>
      rw [any_of_check]
      by_cases h : validate_property name value s = []
      · simp only [h, List.isEmpty_nil, if_true]
        constructor
        · intro _
          exact ⟨s, by simp, h⟩
        · intro _
          trivial
      · have hne : (validate_property name value s).isEmpty = false := by simp [h]
        simp only [hne, Bool.false_eq_true, if_false]
        cases hrec : any_of_check name value rest with
        | none =>
            obtain ⟨w, hw, hwv⟩ := ih.mp hrec
            constructor
            · intro _
              exact ⟨w, by simp [hw], hwv⟩
            · intro _
              trivial
        | some acc =>
            constructor
            · intro hcontra
              exact Option.noConfusion hcontra
            · rintro ⟨w, hw, hwv⟩
              rcases List.mem_cons.mp hw with hws | hwr
              · exact absurd (hws ▸ hwv) h
              · have : any_of_check name value rest = none := ih.mpr ⟨w, hwr, hwv⟩
                rw [this] at hrec
                exact Option.noConfusion hrec

theorem any_of_check_all_fail (name : String) (value : JValue) (subs : List Schema)
    (h : ∀ s ∈ subs, validate_property name value s ≠ []) :
    any_of_check name value subs =
      some ((subs.map (fun s => validate_property name value s)).flatten) := by
  induction subs with
  | nil => simp [any_of_check]
  | cons s rest ih =>
      rw [any_of_check]
      have h1 : validate_property name value s ≠ [] := h s (by simp)
      have hne : (validate_property name value s).isEmpty = false := by simp [h1]
      have h2 := ih (fun t ht => h t (by simp [ht]))
      simp [hne, h2]

/-- Every line contributed by the `anyOf` stage is the summary line or an
indented sub-error. -/
theorem mem_anyOfRender (name : String) (value : JValue) (o : Option (List Schema))
    (x : String) (h : x ∈ anyOfRender name value o) :
    x = "Property " ++ name ++ " does not match any allowed schemas" ∨
      ∃ e, x = "  - " ++ e := by
  cases o with
  | none => exact absurd h (by simp [anyOfRender])
  | some subs =>
      rw [anyOfRender] at h
      cases hc : any_of_check name value subs with
      | none => rw [hc] at h; exact absurd h (by simp)
      | some collected =>
          rw [hc] at h
          rcases List.mem_cons.mp h with hx | hx
          · exact Or.inl hx
          · obtain ⟨e, _, he⟩ := List.mem_map.mp hx
            exact Or.inr ⟨e, he.symm⟩

/-- `_validate_property` on a non-null value is the type-directed checks
(the same fragment with `anyOf` removed) followed by the `anyOf` stage. -/
theorem validate_property_split (name : String) (value : JValue) (schema : Schema)
    (hv : value ≠ JValue.null) :
    validate_property name value schema =
      validate_property name value schema.clearAnyOf ++
        anyOfRender name value schema.anyOf := by
  cases schema with
  | mk t n f mnl mxl mnm mxm mni mxi i p r a =>
      cases a with
      | none =>
          cases value with
          | null => exact absurd rfl hv
          | bool b =>
              simp [validate_property, Schema.clearAnyOf, Schema.anyOf, anyOfRender]
          | int k =>
              simp [validate_property, Schema.clearAnyOf, Schema.anyOf, anyOfRender]
          | float q =>
              simp [validate_property, Schema.clearAnyOf, Schema.anyOf, anyOfRender]
          | str s =>
              simp [validate_property, Schema.clearAnyOf, Schema.anyOf, anyOfRender]
          | arr xs =>
              simp [validate_property, Schema.clearAnyOf, Schema.anyOf, anyOfRender]
          | obj fs =>
              simp [validate_property, Schema.clearAnyOf, Schema.anyOf, anyOfRender]
      | some subs =>
          cases value with
          | null => exact absurd rfl hv
          | bool b =>
              simp [validate_property, Schema.clearAnyOf, Schema.anyOf, anyOfRender]
          | int k =>
              simp [validate_property, Schema.clearAnyOf, Schema.anyOf, anyOfRender]
          | float q =>
              simp [validate_property, Schema.clearAnyOf, Schema.anyOf, anyOfRender]
          | str s =>
              simp [validate_property, Schema.clearAnyOf, Schema.anyOf, anyOfRender]
          | arr xs =>
              simp [validate_property, Schema.clearAnyOf, Schema.anyOf, anyOfRender]
          | obj fs =>
              simp [validate_property, Schema.clearAnyOf, Schema.anyOf, anyOfRender]

/-- The array-element loop is the concatenation, in index order, of the
per-element validations. -/
theorem validate_items_eq (name : String) (isch : Schema) (k : Nat) (xs : List JValue) :
    validate_items name isch k xs =
      ((List.enumFrom k xs).map
        (fun q => validate_property (name ++ "[" ++ toString q.1 ++ "]") q.2 isch)).flatten := by
  induction xs generalizing k with
  | nil => simp [validate_items]
  | cons x rest ih => simp [validate_items, List.enumFrom, ih]

/-- A fragment with no `type` key and no `anyOf` key accepts every
non-null value. -/
theorem validate_property_typeless (name : String) (v : JValue) (f : Schema)
    (hv : v ≠ JValue.null) (ht : f.type = none) (ha : f.anyOf = none) :
    validate_property name v f = [] := by
  cases f with
  | mk t n fo mnl mxl mnm mxm mni mxi i p r a =>
      simp only [Schema.type] at ht
      simp only [Schema.anyOf] at ha
      subst ht
      subst ha
      cases v with
      | null => exact absurd rfl hv
      | bool b => simp [validate_property]
      | int k => simp [validate_property]
      | float q => simp [validate_property]
      | str s => simp [validate_property]
      | arr xs => simp [validate_property]
      | obj fs => simp [validate_property]

/-- On a fragment declaring only `anyOf`, validation of a non-null value
is exactly the rendered union stage. -/
theorem validate_property_anyOfOnly (name : String) (v : JValue) (l : List Schema)
    (hv : v ≠ JValue.null) :
    validate_property name v (anyOfOnly l) = anyOfRender name v (some l) := by
  rw [validate_property_split name v _ hv]
  have h1 : (anyOfOnly l).clearAnyOf = emptySchema := rfl
  have h2 : (anyOfOnly l).anyOf = some l := rfl
  rw [h1, h2, validate_property_typeless name v emptySchema hv rfl rfl]
  simp

/-- The template scan returns the first template (in stored order) that
matches the path and carries the method: templates before it that fail to
match, or match without the method, are skipped. -/
theorem scanPaths_first (method path : String)
    (pre post : List (String × List (String × Operation))) (tpl : String)
    (ops : List (String × Operation)) (op : Operation)
    (hpre : ∀ t o, (t, o) ∈ pre →
        match_path_pattern path t = false ∨ o.lookup method = none)
    (htpl : match_path_pattern path tpl = true)
    (hop : ops.lookup method = some op) :
    scanPaths (pre ++ (tpl, ops) :: post) method path = extract_response_schema op := by
  induction pre with
  | nil => simp [scanPaths, htpl, hop]
  | cons hd rest ih =>
      obtain ⟨t, o⟩ := hd
      have ih2 := ih (fun t' o' h' => hpre t' o' (by simp [h']))
      rcases hpre t o (by simp) with hm | hm
      · simpa [scanPaths, hm] using ih2
      · by_cases hmp : match_path_pattern path t
        · simpa [scanPaths, hmp, hm] using ih2
        · simpa [scanPaths, hmp] using ih2

/-- The template scan returns nothing when every template fails to match
or lacks the method. -/
theorem scanPaths_none (method path : String)
    (paths : List (String × List (String × Operation)))
    (h : ∀ t o, (t, o) ∈ paths →
        match_path_pattern path t = false ∨ o.lookup method = none) :
    scanPaths paths method path = none := by
  induction paths with
  | nil => rfl
  | cons hd rest ih =>
      obtain ⟨t, o⟩ := hd
      have ih2 := ih (fun t' o' h' => h t' o' (by simp [h']))
      rcases h t o (by simp) with hm | hm
      · simpa [scanPaths, hm] using ih2
      · by_cases hmp : match_path_pattern path t
        · simpa [scanPaths, hmp, hm] using ih2
        · simpa [scanPaths, hmp] using ih2

/-- Folding validations into an accumulator appends exactly the list of
independent per-pair results. -/
theorem foldl_validate_append (jobs : List (JValue × Schema))
    (acc : List (Except String (List String))) :
    jobs.foldl (fun acc job => acc ++ [validate_response job.1 job.2]) acc =
      acc ++ jobs.map (fun job => validate_response job.1 job.2) := by
  induction jobs generalizing acc with
  | nil => simp
  | cons j rest ih => simp [List.foldl, ih]

/-- On a `dict` response the `required` loop never raises: it returns the
in-order missing-key errors. -/
theorem required_errors_top_obj (fields : List (String × JValue)) (req : List String) :
    required_errors_top (JValue.obj fields) req =
      Except.ok ((req.map (fun p =>
        if (fields.lookup p).isSome then []
        else ["Missing required property: " ++ p])).flatten) := by
  induction req with
  | nil => rfl
  | cons p rest ih => simp [required_errors_top, pyContains, ih]

/-- On a `dict` response the declared-properties loop never raises: it
returns the in-order concatenation of per-property validations over the
properties present in the response. -/
theorem properties_errors_top_obj (fields : List (String × JValue))
    (props : List (String × Schema)) :
    properties_errors_top (JValue.obj fields) props =
      Except.ok ((props.map (fun q =>
        match fields.lookup q.1 with
        | some v => validate_property q.1 v q.2
        | none => [])).flatten) := by
  induction props with
  | nil => rfl
  | cons q rest ih =>
      obtain ⟨pn, ps⟩ := q
      cases hl : fields.lookup pn with
      | none =>
          simp [properties_errors_top, pyContains, pyGetItem, hl, ih]
      | some v =>
          simp [properties_errors_top, pyContains, pyGetItem, hl, ih]

/-!
## Claim theorems
-/

/-- C1 (counterexample): the spec's concrete example is wrong on the code:
`validate(true, {anyOf: [{type: "string"}, {type: "integer"}]})` returns
the empty list — Python booleans satisfy `isinstance(value, (int, float))`
and `isinstance(value, int)`, so `true` satisfies the `integer`
alternative and the union short-circuits — rather than a list headed by
the "does not match any allowed schemas" summary. -/
theorem C1_counterexample :
    validate_property "x" (JValue.bool true)
        (anyOfOnly [typeOnly "string", typeOnly "integer"]) = [] ∧
    "Property x does not match any allowed schemas" ∉
      validate_property "x" (JValue.bool true)
        (anyOfOnly [typeOnly "string", typeOnly "integer"]) := by
  have hint : validate_property "x" (JValue.bool true) (typeOnly "integer") = [] := by
    simp [validate_property, typeOnly, isNumericType, isIntType]
  have hn : any_of_check "x" (JValue.bool true)
      [typeOnly "string", typeOnly "integer"] = none :=
    (any_of_check_none_iff _ _ _).mpr ⟨typeOnly "integer", by simp, hint⟩
  have h : validate_property "x" (JValue.bool true)
      (anyOfOnly [typeOnly "string", typeOnly "integer"]) = [] := by
    rw [validate_property_anyOfOnly _ _ _ (fun hh => JValue.noConfusion hh),
      anyOfRender, hn]
  exact ⟨h, by simp [h]⟩

/-- C1 (amended): anyOf union semantics — for every non-null value and
every fragment carrying an `anyOf` list, the union stage contributes no
errors as soon as some alternative yields zero errors (discarding errors
of earlier failed alternatives), and if every alternative fails it
appends exactly one summary error followed by every error collected from
every failed alternative, each prefixed with `"  - "`.  In particular
`validate([], {anyOf: [{type: "string"}, {type: "integer"}]})` returns
the summary followed by both sub-alternative errors (the spec's original
example value `true` satisfies the `integer` alternative, because Python
booleans are `int`s, and yields `[]` instead). -/
theorem C1_anyOf_union (name : String) (v : JValue) (f : Schema) (subs : List Schema)
    (hv : v ≠ JValue.null) (ha : f.anyOf = some subs) :
    ((∃ s ∈ subs, validate_property name v s = []) →
        validate_property name v f = validate_property name v f.clearAnyOf) ∧
    ((∀ s ∈ subs, validate_property name v s ≠ []) →
        validate_property name v f =
          validate_property name v f.clearAnyOf ++
            ("Property " ++ name ++ " does not match any allowed schemas") ::
            ((subs.map (fun s => validate_property name v s)).flatten.map
              (fun e => "  - " ++ e))) ∧
    validate_property "x" (JValue.arr [])
        (anyOfOnly [typeOnly "string", typeOnly "integer"]) =
      ["Property x does not match any allowed schemas",
       "  - Property x should be a string",
       "  - Property x should be a number"] := by
  refine ⟨?_, ?_, ?_⟩
  · intro hex
    rw [validate_property_split name v f hv, ha]
    rw [anyOfRender, (any_of_check_none_iff name v subs).mpr hex]
    simp
  · intro hall
    rw [validate_property_split name v f hv, ha]
    rw [anyOfRender, any_of_check_all_fail name v subs hall]
  · have hstr : validate_property "x" (JValue.arr []) (typeOnly "string") =
        ["Property x should be a string"] := by
      simp [validate_property, typeOnly]
    have hnum : validate_property "x" (JValue.arr []) (typeOnly "integer") =
        ["Property x should be a number"] := by
      simp [validate_property, typeOnly, isNumericType]
    have hall : ∀ s ∈ [typeOnly "string", typeOnly "integer"],
        validate_property "x" (JValue.arr []) s ≠ [] := by
      intro s hs
      rcases List.mem_cons.mp hs with h | h
      · rw [h, hstr]; simp
      · rcases List.mem_cons.mp h with h2 | h2
        · rw [h2, hnum]; simp
        · exact absurd h2 (List.not_mem_nil s)
    have hsome := any_of_check_all_fail "x" (JValue.arr [])
      [typeOnly "string", typeOnly "integer"] hall
    rw [validate_property_anyOfOnly _ _ _ (fun hh => JValue.noConfusion hh),
      anyOfRender, hsome]
    simp [hstr, hnum]

/-- C1 (witness): the amended example evaluated through the theorem. -/
theorem C1_witness :
    validate_property "x" (JValue.arr [])
        (anyOfOnly [typeOnly "string", typeOnly "integer"]) =
      ["Property x does not match any allowed schemas",
       "  - Property x should be a string",
       "  - Property x should be a number"] :=
  (C1_anyOf_union "x" (JValue.arr [])
      (anyOfOnly [typeOnly "string", typeOnly "integer"])
      [typeOnly "string", typeOnly "integer"]
      (fun h => JValue.noConfusion h) rfl).2.2

/-- C2 (counterexample): a fragment with no `type` and no `anyOf` is not
error-free for every value — the null check runs first, so validating
`null` against the empty fragment yields the cannot-be-null error, not
`[]`. -/
theorem C2_counterexample :
    validate_property "x" JValue.null emptySchema = ["Property x cannot be null"] ∧
    validate_property "x" JValue.null emptySchema ≠ [] := by
  have h : validate_property "x" JValue.null emptySchema =
      ["Property x cannot be null"] := by
    simp [validate_property, emptySchema]
  exact ⟨h, by simp [h]⟩

/-- C2 (amended): permissive default for empty fragments — for every
non-null value and every fragment declaring neither `type` nor `anyOf`,
validation returns the empty error list (for `null` the null-handling
step of C3 applies instead). -/
theorem C2_permissive_default (name : String) (v : JValue) (f : Schema)
    (hv : v ≠ JValue.null) (ht : f.type = none) (ha : f.anyOf = none) :
    validate_property name v f = [] :=
  validate_property_typeless name v f hv ht ha

/-- C2 (witness): the amended theorem at a concrete input. -/
theorem C2_witness : validate_property "x" (JValue.int 5) emptySchema = [] :=
  C2_permissive_default "x" (JValue.int 5) emptySchema
    (fun h => JValue.noConfusion h) rfl rfl

/-- C3: null handling — for every fragment, validating `null` returns
`[]` when the fragment is marked nullable and exactly the one-element
cannot-be-null list otherwise; no other check contributes anything. -/
theorem C3_null_handling (name : String) (f : Schema) :
    validate_property name JValue.null f =
      (if f.nullable then [] else ["Property " ++ name ++ " cannot be null"]) := by
  cases f
  simp [validate_property]

/-- C4: integer strictness — against a fragment with `type: "integer"`,
every float-typed value (even a numerically whole one) produces the
should-be-an-integer error, while int-typed values never produce it:
the check is on the value's runtime type. -/
theorem C4_integer_strictness (name : String) (f : Schema)
    (hf : f.type = some "integer") :
    (∀ q : Rat, ("Property " ++ name ++ " should be an integer") ∈
        validate_property name (JValue.float q) f) ∧
    (∀ k : Int, ("Property " ++ name ++ " should be an integer") ∉
        validate_property name (JValue.int k) f) := by
  cases f with
  | mk t n fo mnl mxl mnm mxm mni mxi i p r a =>
      simp only [Schema.type] at hf
      subst hf
      constructor
      · intro q
        rw [validate_property_split _ _ _ (fun h => JValue.noConfusion h)]
        apply List.mem_append_left
        rw [Schema.clearAnyOf]
        simp [validate_property, isNumericType, isIntType]
      · intro k hmem
        rw [validate_property_split _ _ _ (fun h => JValue.noConfusion h)] at hmem
        rcases List.mem_append.mp hmem with hm | hm
        · rw [Schema.clearAnyOf] at hm
          cases mnm with
          | none =>
              cases mxm with
              | none => simp [validate_property, isNumericType, isIntType] at hm
              | some mx =>
                  by_cases hc : toNum (JValue.int k) > mx
                  · simp [validate_property, isNumericType, isIntType, hc] at hm
                    exact intMsg_ne_large name (toString mx) hm
                  · simp [validate_property, isNumericType, isIntType, hc] at hm
          | some mn =>
              cases mxm with
              | none =>
                  by_cases hc : toNum (JValue.int k) < mn
                  · simp [validate_property, isNumericType, isIntType, hc] at hm
                    exact intMsg_ne_small name (toString mn) hm
                  · simp [validate_property, isNumericType, isIntType, hc] at hm
              | some mx =>
                  by_cases hc : toNum (JValue.int k) < mn <;>
                    by_cases hc2 : toNum (JValue.int k) > mx <;>
                      simp [validate_property, isNumericType, isIntType, hc, hc2] at hm
                  · rcases hm with hm | hm
                    · exact intMsg_ne_small name (toString mn) hm
                    · exact intMsg_ne_large name (toString mx) hm
                  · exact intMsg_ne_small name (toString mn) hm
                  · exact intMsg_ne_large name (toString mx) hm
        · rcases mem_anyOfRender _ _ _ _ hm with hsum | ⟨e, he⟩
          · exact intMsg_ne_summary name hsum
          · exact indented_ne_of_head e
              ("Property " ++ name ++ " should be an integer") 'P'
              (prop_msg_head name " should be an integer") (by decide) he.symm

/-- C4 (witness): the whole float `3.0` is rejected as an integer while
the int `3` is accepted. -/
theorem C4_witness :
    ("Property " ++ "x" ++ " should be an integer") ∈
        validate_property "x" (JValue.float 3) (typeOnly "integer") ∧
    ("Property " ++ "x" ++ " should be an integer") ∉
        validate_property "x" (JValue.int 3) (typeOnly "integer") :=
  ⟨(C4_integer_strictness "x" (typeOnly "integer") rfl).1 3,
   (C4_integer_strictness "x" (typeOnly "integer") rfl).2 3⟩

/-- C5: booleans count as numbers — Python `isinstance(b, int)` holds for
booleans, so a boolean passes `integer` and `number` fragments with no
type error and is compared against `minimum` as 0 or 1; conversely the
integers 0 and 1 are not booleans and fail a `boolean` fragment. -/
theorem C5_bool_is_numeric (b : Bool) :
    validate_property "x" (JValue.bool b) (typeOnly "integer") = [] ∧
    validate_property "x" (JValue.bool b) (typeOnly "number") = [] ∧
    validate_property "x" (JValue.bool false)
        (Schema.mk (some "integer") false none none none (some 1) none none none none
          [] [] none) =
      ["Property x is too small (min: 1)"] ∧
    validate_property "x" (JValue.bool true)
        (Schema.mk (some "integer") false none none none (some 1) none none none none
          [] [] none) = [] ∧
    validate_property "x" (JValue.int 0) (typeOnly "boolean") =
      ["Property x should be a boolean"] ∧
    validate_property "x" (JValue.int 1) (typeOnly "boolean") =
      ["Property x should be a boolean"] := by
  refine ⟨?_, ?_, ?_, ?_, ?_, ?_⟩
  · cases b <;> simp [validate_property, typeOnly, isNumericType, isIntType]
  · cases b <;> simp [validate_property, typeOnly, isNumericType, isIntType]
  · simp [validate_property, isNumericType, isIntType, toNum]
    decide
  · simp [validate_property, isNumericType, isIntType, toNum]
  · simp [validate_property, typeOnly, isNumericType, isIntType]
  · simp [validate_property, typeOnly, isNumericType, isIntType]

/-- A fragment declaring `type: "array"` with an `items` sub-fragment. -/
def arrayOf (isch : Schema) : Schema :=
  Schema.mk (some "array") false none none none none none none none (some isch)
    [] [] none

/-- C8: array element accumulation — every element of a list value is
validated against `items` with path suffix `[index]`, errors concatenated
in index order with no short-circuit, and `minItems` is checked
independently afterwards; the spec's 3-element example yields exactly the
two element errors tagged `x[0]` and `x[2]`. -/
theorem C8_array_accumulation (name : String) (xs : List JValue) (isch : Schema) :
    (validate_property name (JValue.arr xs) (arrayOf isch) =
      ((List.enum xs).map (fun q =>
        validate_property (name ++ "[" ++ toString q.1 ++ "]") q.2 isch)).flatten) ∧
    validate_property "x" (JValue.arr [JValue.int 1, JValue.str "a", JValue.int 2])
        (arrayOf (typeOnly "string")) =
      ["Property x[0] should be a string", "Property x[2] should be a string"] ∧
    validate_property "x" (JValue.arr [JValue.int 1, JValue.str "a", JValue.int 2])
        (Schema.mk (some "array") false none none none none none (some 4) none
          (some (typeOnly "string")) [] [] none) =
      ["Property x[0] should be a string", "Property x[2] should be a string",
       "Property x has too few items (min: 4)"] := by
  refine ⟨?_, ?_, ?_⟩
  · simp [validate_property, arrayOf, validate_items_eq, List.enum]
  · simp [validate_property, arrayOf, validate_items, typeOnly]
    decide
  · simp [validate_property, validate_items, typeOnly]
    decide

/-- C9: purity and idempotence — in this pure embedding validation is by
construction a function of (fragment, value); the observable consequence
the spec states is proved: a sequential batch against an accumulator
equals the independent per-pair validations, and validating the same
(value, fragment) pair twice yields element-for-element identical
results. -/
theorem C9_pure_idempotent (jobs : List (JValue × Schema)) :
    validateBatch jobs = jobs.map (fun job => validate_response job.1 job.2) ∧
    ∀ v f, validateBatch [(v, f), (v, f)] =
      [validate_response v f, validate_response v f] := by
  constructor
  · simpa using foldl_validate_append jobs []
  · intro v f
    simp [validateBatch, foldl_validate_append]

/-- C10 (counterexample): `validate_response` is not throw-free for every
JSON value — on a non-iterable top-level value such as the integer `5`,
with a schema declaring a required key, Python's `prop not in response`
raises `TypeError` (modelled as `Except.error`) instead of returning a
list. -/
theorem C10_counterexample :
    validate_response (JValue.int 5)
        (Schema.mk none false none none none none none none none none [] ["a"] none) =
      Except.error "TypeError: argument is not iterable" := by
  simp [validate_response, required_errors_top, properties_errors_top, pyContains]

/-- C10 (amended): for every JSON *object* response and every fragment of
the supported subset, `validate_response` returns normally with all
violations as strings in the result list; violations are data, never
raised. -/
theorem C10_total_on_objects (fields : List (String × JValue)) (f : Schema) :
    ∃ errs, validate_response (JValue.obj fields) f = Except.ok errs := by
  rw [validate_response, required_errors_top_obj, properties_errors_top_obj]
  exact ⟨_, rfl⟩

/-- The response schema used by the concrete path-matching example. -/
def agentSchema : Schema := typeOnly "object"

/-- A GET operation whose 200 response declares a JSON body with
`agentSchema`. -/
def agentOp : Operation :=
  Operation.mk
    [("200", ResponseSpec.mk
        (some [("application/json", MediaObject.mk (some agentSchema))]))]

/-- A document registering the parametrized template `/api/agents/{id}`. -/
def docTemplate : OpenAPIDoc :=
  OpenAPIDoc.mk [("/api/agents/\x7bid\x7d", [("get", agentOp)])]

/-- A document registering the exact path `/api/agents/42`. -/
def docExact : OpenAPIDoc :=
  OpenAPIDoc.mk [("/api/agents/42", [("get", agentOp)])]

/-- A validator loaded with `docTemplate`. -/
def rvTemplate : ResponseValidator := ResponseValidator.mk (some docTemplate)

/-- A validator loaded with `docExact`. -/
def rvExact : ResponseValidator := ResponseValidator.mk (some docExact)

/-- C6: path matching — the concrete path is used only through its
normalization; a verbatim template whose operation mapping contains the
lowercased method resolves directly; otherwise the first template in
stored order that pattern-matches (each `{name}` standing for a nonempty
slash-free segment) and carries the method wins; and concretely the
template `/api/agents/{id}` resolves `/api/agents/42` for `GET` to the
same fragment an exact-match template yields. -/
theorem C6_path_matching (doc : OpenAPIDoc) (m p : String) :
    (∀ q : String, normalizePath p = normalizePath q →
        get_schema_for_endpoint (ResponseValidator.mk (some doc)) m p =
          get_schema_for_endpoint (ResponseValidator.mk (some doc)) m q) ∧
    (∀ endpointSpec op,
        doc.paths.lookup (normalizePath p) = some endpointSpec →
        endpointSpec.lookup (lowerAscii m) = some op →
        get_schema_for_endpoint (ResponseValidator.mk (some doc)) m p =
          extract_response_schema op) ∧
    (∀ pre post tpl ops op,
        doc.paths = pre ++ (tpl, ops) :: post →
        (∀ ops0, doc.paths.lookup (normalizePath p) = some ops0 →
            ops0.lookup (lowerAscii m) = none) →
        (∀ t o, (t, o) ∈ pre →
            match_path_pattern (normalizePath p) t = false ∨
              o.lookup (lowerAscii m) = none) →
        match_path_pattern (normalizePath p) tpl = true →
        ops.lookup (lowerAscii m) = some op →
        get_schema_for_endpoint (ResponseValidator.mk (some doc)) m p =
          extract_response_schema op) ∧
    (get_schema_for_endpoint rvTemplate "GET" "/api/agents/42" = some agentSchema ∧
     get_schema_for_endpoint rvExact "GET" "/api/agents/42" = some agentSchema) := by
  refine ⟨?_, ?_, ?_, ?_, ?_⟩
  · intro q hq
    unfold get_schema_for_endpoint
    rw [hq]
  · intro endpointSpec op h1 h2
    simp [get_schema_for_endpoint, h1, h2]
  · intro pre post tpl ops op hsplit hexact hpre htpl hop
    have hscan : scanPaths doc.paths (lowerAscii m) (normalizePath p) =
        extract_response_schema op := by
      rw [hsplit]
      exact scanPaths_first (lowerAscii m) (normalizePath p) pre post tpl ops op
        hpre htpl hop
    cases hlk : doc.paths.lookup (normalizePath p) with
    | none => simp [get_schema_for_endpoint, hlk, hscan]
    | some ops0 =>
        have hm0 := hexact ops0 hlk
        simp [get_schema_for_endpoint, hlk, hm0, hscan]
  · simp [get_schema_for_endpoint, rvTemplate, docTemplate, agentOp, normalizePath,
      rstripSlashes, lowerAscii, scanPaths, match_path_pattern, parseTemplate,
      matchParts, extract_response_schema, statusJsonSchema, List.lookup]
    exact ⟨1, by decide⟩
  · simp [get_schema_for_endpoint, rvExact, docExact, agentOp, normalizePath,
      rstripSlashes, lowerAscii, scanPaths, match_path_pattern, parseTemplate,
      matchParts, extract_response_schema, statusJsonSchema, List.lookup]

/-- C6 (witness): the exact-match and first-match clauses applied to the
concrete documents. -/
theorem C6_witness :
    get_schema_for_endpoint rvExact "GET" "/api/agents/42" =
      extract_response_schema agentOp ∧
    get_schema_for_endpoint rvTemplate "GET" "/api/agents/42" =
      extract_response_schema agentOp := by
  constructor
  · exact (C6_path_matching docExact "GET" "/api/agents/42").2.1
      [("get", agentOp)] agentOp rfl rfl
  · exact (C6_path_matching docTemplate "GET" "/api/agents/42").2.2.1
      [] [] "/api/agents/\x7bid\x7d" [("get", agentOp)] agentOp rfl
      (fun ops0 h => Option.noConfusion h)
      (fun t o h => absurd h (List.not_mem_nil _))
      (by simp [match_path_pattern, parseTemplate, matchParts, normalizePath,
            rstripSlashes]
          exact ⟨1, by decide⟩)
      rfl

/-- An operation whose 200 response declares no JSON body and whose 201
response declares one. -/
def op200NoJson201Json : Operation :=
  Operation.mk
    [("200", ResponseSpec.mk (some [("text/html", MediaObject.mk none)])),
     ("201", ResponseSpec.mk
        (some [("application/json", MediaObject.mk (some (typeOnly "string")))]))]

/-- C7: response-schema extraction — status codes `"200"` then `"201"`
are tried in that order and the (possibly absent) schema of the first
whose content declares an `application/json` entry is returned; when
neither does, or when no path or method matches at any stage, or when no
schema document is loaded, the result is `none` — never an exception
(every function involved is total). -/
theorem C7_response_extraction (op : Operation) (doc : OpenAPIDoc) (m p : String) :
    (∀ s, statusJsonSchema op.responses "200" = some s →
        extract_response_schema op = s) ∧
    (statusJsonSchema op.responses "200" = none →
      ∀ s, statusJsonSchema op.responses "201" = some s →
        extract_response_schema op = s) ∧
    (statusJsonSchema op.responses "200" = none →
      statusJsonSchema op.responses "201" = none →
        extract_response_schema op = none) ∧
    (∀ code s, statusJsonSchema op.responses code = some s ↔
        ∃ spec content media,
          op.responses.lookup code = some spec ∧
          spec.content = some content ∧
          content.lookup "application/json" = some media ∧
          media.schema = s) ∧
    ((∀ ops0, doc.paths.lookup (normalizePath p) = some ops0 →
        ops0.lookup (lowerAscii m) = none) →
      (∀ t o, (t, o) ∈ doc.paths →
          match_path_pattern (normalizePath p) t = false ∨
            o.lookup (lowerAscii m) = none) →
      get_schema_for_endpoint (ResponseValidator.mk (some doc)) m p = none) ∧
    get_schema_for_endpoint (ResponseValidator.mk none) m p = none := by
  refine ⟨?_, ?_, ?_, ?_, ?_, rfl⟩
  · intro s h
    rw [extract_response_schema, h]
  · intro h0 s h1
    rw [extract_response_schema, h0, h1]
  · intro h0 h1
    rw [extract_response_schema, h0, h1]
  · intro code s
    rw [statusJsonSchema]
    cases hl : op.responses.lookup code with
    | none => simp
    | some spec =>
        cases hc : spec.content with
        | none => simp [hc]
        | some content =>
            cases hj : content.lookup "application/json" with
            | none => simp [hc, hj]
            | some media => simp [hc, hj]
  · intro hexact hall
    have hscan := scanPaths_none (lowerAscii m) (normalizePath p) doc.paths hall
    cases hlk : doc.paths.lookup (normalizePath p) with
    | none => simp [get_schema_for_endpoint, hlk, hscan]
    | some ops0 =>
        have hm0 := hexact ops0 hlk
        simp [get_schema_for_endpoint, hlk, hm0, hscan]

/-- C7 (witness): with a 200 response lacking a JSON body and a 201
response declaring one, extraction returns the 201 schema. -/
theorem C7_witness :
    extract_response_schema op200NoJson201Json = some (typeOnly "string") :=
  (C7_response_extraction op200NoJson201Json (OpenAPIDoc.mk []) "get" "/x").2.1
    rfl (some (typeOnly "string")) rfl

end LLMEval
